import Mathlib

/-!
Verification of the calendar-date and datetime engine (Rust sources
`date.rs`, `naive_datetime.rs`, `local_datetime.rs`) against its
specification.  The Rust code is shallowly embedded: `u8`/`u16`/`u32`
fields become `Nat` (with explicit wrapping where the source can wrap),
`i32`/`i128` arithmetic becomes `Int` (with explicit two-complement
wrapping where the source casts), and fallible operations return
`Option`/`Except`.
-/

namespace Whenever

/-! ### Tables and helpers from `date.rs` -/

/-- Table `DAYS_IN_MONTH` from `date.rs` (1-indexed, index 0 is padding). -/
def DAYS_IN_MONTH_TABLE : List Nat :=
  [0, 31, 28, 31, 30, 31, 30, 31, 31, 30, 31, 30, 31]

/-- Table `DAYS_BEFORE_MONTH` from `date.rs` (1-indexed, index 0 is padding). -/
def DAYS_BEFORE_MONTH_TABLE : List Nat :=
  [0, 0, 31, 59, 90, 120, 151, 181, 212, 243, 273, 304, 334]

/-- Function `is_leap` from `date.rs`. -/
def is_leap (year : Nat) : Bool :=
  (year % 4 == 0 && year % 100 != 0) || year % 400 == 0

/-- Function `days_in_month` from `date.rs`.  Out-of-range months return the
table default 0, matching the release-mode table lookup. -/
def days_in_month (year month : Nat) : Nat :=
  if month == 2 && is_leap year then 29 else DAYS_IN_MONTH_TABLE.getD month 0

/-- Function `days_before_year` from `date.rs` (its local `y = year - 1` is
inlined). -/
def days_before_year (year : Nat) : Nat :=
  (year - 1) * 365 + (year - 1) / 4 - (year - 1) / 100 + (year - 1) / 400

/-- Function `days_before_month` from `date.rs`. -/
def days_before_month (year month : Nat) : Nat :=
  DAYS_BEFORE_MONTH_TABLE.getD month 0 + (if 2 < month && is_leap year then 1 else 0)

/-! ### The `Date` struct from `date.rs` -/

/-- Struct `Date` from `date.rs`: `{year: u16, month: u8, day: u8}`. -/
structure Date where
  year : Nat
  month : Nat
  day : Nat
deriving DecidableEq, Repr

/-- Validity invariant of `Date` (spec section 3): year 1..=9999,
month 1..=12, day 1..=days_in_month. -/
def Date.Valid (d : Date) : Prop :=
  1 ≤ d.year ∧ d.year ≤ 9999 ∧ 1 ≤ d.month ∧ d.month ≤ 12 ∧
    1 ≤ d.day ∧ d.day ≤ days_in_month d.year d.month

instance (d : Date) : Decidable d.Valid := by
  unfold Date.Valid; infer_instance

/-- Method `Date::ord` from `date.rs`. -/
def Date.ord (d : Date) : Nat :=
  days_before_year d.year + days_before_month d.year d.month + d.day

/-- Method `Date::from_ord_unchecked` from `date.rs` (the algorithm based on
`datetime.date.fromordinal`; `>> 5` is division by 32). -/
def Date.from_ord_unchecked (ordn : Nat) : Date :=
  let n0 := ordn - 1
  let n400 := n0 / 146097
  let r400 := n0 % 146097
  let n100 := r400 / 36524
  let r100 := r400 % 36524
  let n4 := r100 / 1461
  let r4 := r100 % 1461
  let n1 := r4 / 365
  let r1 := r4 % 365
  let year := 400 * n400 + 100 * n100 + 4 * n4 + n1 + 1
  if n1 == 4 || n100 == 4 then
    ⟨year - 1, 12, 31⟩
  else
    let month0 := (r1 + 50) / 32
    let monthdays0 := days_before_month year month0
    if r1 < monthdays0 then
      ⟨year, month0 - 1, r1 - (monthdays0 - days_in_month year (month0 - 1)) + 1⟩
    else
      ⟨year, month0, r1 - monthdays0 + 1⟩

/-- Method `Date::from_ord` from `date.rs`: range check `MIN_ORD..=MAX_ORD`
then `from_ord_unchecked`. -/
def Date.from_ord (o : Int) : Option Date :=
  if 1 ≤ o ∧ o ≤ 3652059 then some (Date.from_ord_unchecked o.toNat) else none

/-- Method `Date::new` from `date.rs`: the disjunction of range checks,
with `MAX_YEAR = 9999`. -/
def Date.new (year month day : Nat) : Option Date :=
  if year = 0 ∨ 9999 < year ∨ month < 1 ∨ 12 < month ∨ day < 1 ∨
      days_in_month year month < day then
    none
  else
    some ⟨year, month, day⟩

/-- Method `Date::increment` from `date.rs`. -/
def Date.increment (d : Date) : Date :=
  if d.day < days_in_month d.year d.month then
    ⟨d.year, d.month, d.day + 1⟩
  else
    ⟨d.year, d.month % 12 + 1, 1⟩

/-- Method `Date::decrement` from `date.rs` (`saturating_sub` on a `u8` month
is `Nat` subtraction; `days_in_month` is evaluated at `month - 1` first, as in
the source). -/
def Date.decrement (d : Date) : Date :=
  if 1 < d.day then
    ⟨d.year, d.month, d.day - 1⟩
  else
    ⟨d.year, d.month - 1, days_in_month d.year (d.month - 1)⟩

/-- Wrapping of a mathematical integer into the two-complement `i32` range,
modelling Rust release-mode overflow. -/
def wrap32 (x : Int) : Int := (x + 2 ^ 31) % 2 ^ 32 - 2 ^ 31

/-- Method `Date::shift_days` from `date.rs`:
`Date::from_ord((self.ord() as i32).checked_add(days)?)`.  The `checked_add`
returns `None` on `i32` overflow. -/
def Date.shift_days (d : Date) (days : Int) : Option Date :=
  let s : Int := (d.ord : Int) + days
  if s < -(2 ^ 31) ∨ 2 ^ 31 - 1 < s then none else Date.from_ord s

/-- Method `Date::shift_months` from `date.rs`.  The sum
`self.month as i32 + months - 1` is an `i32` computation which can wrap;
`rem_euclid`/`div_euclid` are `Int.emod`/`Int.ediv`. -/
def Date.shift_months (d : Date) (months : Int) : Option Date :=
  let t := wrap32 ((d.month : Int) + months - 1)
  let month := (t % 12).toNat + 1
  let year := (d.year : Int) + t / 12
  if 1 ≤ year ∧ year ≤ 9999 then
    some ⟨year.toNat, month,
      if days_in_month year.toNat month < d.day then days_in_month year.toNat month
      else d.day⟩
  else none

/-- Method `Date::shift` from `date.rs`: months (plus years) first, then
days. -/
def Date.shift (d : Date) (years months days : Int) : Option Date :=
  (d.shift_months (months + years * 12)).bind (fun date => date.shift_days days)

end Whenever

namespace Whenever

/-! ### Basic facts about the tables -/

theorem days_in_month_le_31 (y m : Nat) : days_in_month y m ≤ 31 := by
  unfold days_in_month
  split
  · omega
  · rcases m with _ | _ | _ | _ | _ | _ | _ | _ | _ | _ | _ | _ | _ | m <;>
      simp [DAYS_IN_MONTH_TABLE, List.getD]

theorem is_leap_iff (y : Nat) :
    is_leap y = true ↔ ((y % 4 = 0 ∧ y % 100 ≠ 0) ∨ y % 400 = 0) := by
  simp [is_leap]

theorem days_in_month_of_gt_12 (y m : Nat) (h : 12 < m) : days_in_month y m = 0 := by
  unfold days_in_month
  have h2 : (m == 2) = false := beq_eq_false_iff_ne.mpr (by omega)
  rw [h2]
  simp only [Bool.false_and, Bool.false_eq_true, if_false]
  rcases m with _ | _ | _ | _ | _ | _ | _ | _ | _ | _ | _ | _ | _ | m
  all_goals first
    | omega
    | simp [DAYS_IN_MONTH_TABLE, List.getD]

/-! ### Claim C3: `Date::new` validates exactly the in-range components -/

/-- C3: `Date::new(year, month, day)` returns a date exactly when all
components are in range (year 1..=9999, month 1..=12, day
1..=days_in_month), February has 29 days exactly in leap years per the
4/100/400 rule, and the four boundary examples behave as specified. -/
theorem c3_new_validates_components :
    (∀ year month day : Nat,
      Date.new year month day =
        if 1 ≤ year ∧ year ≤ 9999 ∧ 1 ≤ month ∧ month ≤ 12 ∧ 1 ≤ day ∧
            day ≤ days_in_month year month
        then some ⟨year, month, day⟩ else none) ∧
    (∀ year : Nat, days_in_month year 2 =
      if (year % 4 = 0 ∧ year % 100 ≠ 0) ∨ year % 400 = 0 then 29 else 28) ∧
    Date.new 2021 2 29 = none ∧ Date.new 1900 2 29 = none ∧
    Date.new 2020 2 29 = some ⟨2020, 2, 29⟩ ∧
    Date.new 2000 2 29 = some ⟨2000, 2, 29⟩ := by
  refine ⟨?_, ?_, by decide, by decide, by decide, by decide⟩
  · intro y m d
    unfold Date.new
    split
    · rw [if_neg (by omega)]
    · rw [if_pos (by omega)]
  · intro y
    unfold days_in_month
    by_cases hL : is_leap y
    · rw [if_pos (by simp [hL]), if_pos ((is_leap_iff y).mp hL)]
    · rw [if_neg (by simp [hL]), if_neg (fun h => hL ((is_leap_iff y).mpr h))]
      decide

/-! ### Claim C2: `increment`/`decrement` at year boundaries (code bug) -/

/-- C2 (refuting evaluation): the code of `Date::increment` applied to
December 31 keeps the year unchanged instead of moving to January 1 of the
next year, so the resulting ordinal is not `ord + 1`; and `Date::decrement`
applied to January 1 produces the invalid components month 0, day 0 instead
of December 31 of the previous year.  The repository declares the opposite
behaviour in its own test suite (`test_small_shift_unchecked` expects
2023-01-01 minus one second to be 2022-12-31 23:59:59). -/
theorem c2_increment_decrement_year_boundary_bug :
    Date.increment ⟨2022, 12, 31⟩ = ⟨2022, 1, 1⟩ ∧
    (Date.increment ⟨2022, 12, 31⟩).ord ≠ (Date.mk 2022 12 31).ord + 1 ∧
    Date.decrement ⟨2023, 1, 1⟩ = ⟨2023, 0, 0⟩ ∧
    ¬ (Date.decrement ⟨2023, 1, 1⟩).Valid := by
  refine ⟨by decide, by decide, by decide, by decide⟩

/-! ### Claim C4: `shift_months` via Euclidean division with day clamping -/

/-- C4: for every valid date and every `i32` months amount, `shift_months`
computes the target year and month by Euclidean division of
`month - 1 + n` by 12, clamps the day to the days of the target month when
it exceeds them, returns `None` exactly when the target year leaves
1..=9999, and never rolls January 31 plus one month into March. -/
theorem c4_shift_months_euclid_clamp :
    (∀ (d : Date) (n : Int), d.Valid → -(2 ^ 31) ≤ n → n < 2 ^ 31 →
      d.shift_months n =
        if 1 ≤ (d.year : Int) + ((d.month : Int) + n - 1) / 12 ∧
            (d.year : Int) + ((d.month : Int) + n - 1) / 12 ≤ 9999 then
          some ⟨((d.year : Int) + ((d.month : Int) + n - 1) / 12).toNat,
            (((d.month : Int) + n - 1) % 12).toNat + 1,
            min d.day
              (days_in_month ((d.year : Int) + ((d.month : Int) + n - 1) / 12).toNat
                ((((d.month : Int) + n - 1) % 12).toNat + 1))⟩
        else none) ∧
    Date.shift_months ⟨2021, 1, 31⟩ 1 = some ⟨2021, 2, 28⟩ ∧
    Date.shift_months ⟨2020, 1, 31⟩ 1 = some ⟨2020, 2, 29⟩ := by
  refine ⟨?_, by decide, by decide⟩
  intro d n hv hlo hhi
  obtain ⟨hy1, hy2, hm1, hm2, _, _⟩ := hv
  unfold Date.shift_months
  by_cases hw : (d.month : Int) + n - 1 < 2 ^ 31
  · have heq : wrap32 ((d.month : Int) + n - 1) = (d.month : Int) + n - 1 := by
      unfold wrap32; omega
    rw [heq]
    have hmin : ∀ a b : Nat, (if b < a then b else a) = min a b := fun a b => by
      rw [Nat.min_def]; split <;> split <;> omega
    simp only [hmin]
  · have heq : wrap32 ((d.month : Int) + n - 1) = (d.month : Int) + n - 1 - 2 ^ 32 := by
      unfold wrap32; omega
    rw [heq]
    rw [if_neg (by omega), if_neg (by omega)]

/-- C4 witness: the claim theorem applied at the concrete input
2021-01-31 shifted by one month. -/
theorem c4_witness : Date.shift_months ⟨2021, 1, 31⟩ 1 = some ⟨2021, 2, 28⟩ := by
  have h := c4_shift_months_euclid_clamp.1 ⟨2021, 1, 31⟩ 1 (by decide) (by decide) (by decide)
  rw [h]; decide

/-! ### The `Time` struct

Modelled from the spec: `time.rs` is not part of the provided sources; the
struct fields appear throughout `naive_datetime.rs`/`local_datetime.rs` and
the behaviour of its methods is fixed by spec sections 3 and 4.2. -/

/-- Modelled from the spec: struct `Time` of the missing `time.rs`, a
sub-day clock value `{hour: u8, minute: u8, second: u8, nanos: u32}`. -/
structure Time where
  hour : Nat
  minute : Nat
  second : Nat
  nanos : Nat
deriving DecidableEq, Repr

/-- Validity invariant of `Time` (spec section 3). -/
def Time.Valid (t : Time) : Prop :=
  t.hour ≤ 23 ∧ t.minute ≤ 59 ∧ t.second ≤ 59 ∧ t.nanos ≤ 999999999

instance (t : Time) : Decidable t.Valid := by
  unfold Time.Valid; infer_instance

/-- Modelled from the spec: total seconds since midnight, the method
`Time::total_seconds` (called `seconds` in `naive_datetime.rs`) of the
missing `time.rs`. -/
def Time.total_seconds (t : Time) : Nat :=
  t.hour * 3600 + t.minute * 60 + t.second

/-- Modelled from the spec: total nanoseconds since midnight, the canonical
linearization of a `Time` (spec section 3), the method `Time::total_nanos`
of the missing `time.rs`. -/
def Time.total_nanos (t : Time) : Nat :=
  t.total_seconds * 1000000000 + t.nanos

/-- Modelled from the spec: the method `Time::set_seconds` of the missing
`time.rs`, a mutator-as-constructor that replaces the clock part from a
count of seconds since midnight, keeping the nanosecond part
(spec section 4.2). -/
def Time.set_seconds (t : Time) (secs : Nat) : Time :=
  ⟨secs / 3600, secs / 60 % 60, secs % 60, t.nanos⟩

/-- Modelled from the spec: the method `Time::from_total_nanos` (also its
unchecked variant) of the missing `time.rs`, inverse of the
total-nanoseconds linearization. -/
def Time.from_total_nanos (n : Nat) : Time :=
  ⟨n / 3600000000000, n / 60000000000 % 60, n / 1000000000 % 60, n % 1000000000⟩

/-! ### The `DateTime` struct of `naive_datetime.rs` and `local_datetime.rs`

Both files define the identical struct `DateTime { date: Date, time: Time }`
(one exposed as `NaiveDateTime`, one as `LocalDateTime`); a single embedding
serves both. -/

/-- Struct `DateTime` from `naive_datetime.rs`/`local_datetime.rs`. -/
structure DateTime where
  date : Date
  time : Time
deriving DecidableEq, Repr

/-- Validity of a `DateTime`: both components valid. -/
def DateTime.Valid (dt : DateTime) : Prop := dt.date.Valid ∧ dt.time.Valid

instance (dt : DateTime) : Decidable dt.Valid := by
  unfold DateTime.Valid; infer_instance

/-- Nanoseconds per day (`NS_PER_DAY` of the missing `common.rs`). -/
def NS_PER_DAY : Int := 86400000000000

/-- Seconds per day (`S_PER_DAY` of the missing `common.rs`). -/
def S_PER_DAY : Int := 86400

/-- Method `DateTime::shift_date` from `local_datetime.rs` (months first,
then days, via `Date::shift`); `naive_datetime.rs` is identical up to the
zero years argument. -/
def DateTime.shift_date (dt : DateTime) (months days : Int) : Option DateTime :=
  (dt.date.shift 0 months days).map (fun date => ⟨date, dt.time⟩)

/-- Method `DateTime::shift_nanos` from `local_datetime.rs` and
`naive_datetime.rs`.  The cast `as i32` of `days_delta` wraps; the
remainder `rem_euclid NS_PER_DAY` is non-negative, so the `as u64` cast is
`Int.toNat`. -/
def DateTime.shift_nanos (dt : DateTime) (nanos : Int) : Option DateTime :=
  let new_time : Int := (dt.time.total_nanos : Int) + nanos
  let days_delta := wrap32 (new_time / NS_PER_DAY)
  let nano_delta := new_time % NS_PER_DAY
  (if days_delta ≠ 0 then dt.date.shift_days days_delta else some dt.date).map
    (fun date => ⟨date, Time.from_total_nanos nano_delta.toNat⟩)

/-- Method `DateTime::small_shift_unchecked` from `local_datetime.rs` and
`naive_datetime.rs`.  The `unreachable!()` arm of the `match` becomes
`none`; the `as u32` casts become `Int.toNat` (each cast value is
non-negative whenever its arm is taken, by Euclidean division). -/
def DateTime.small_shift_unchecked (dt : DateTime) (secs : Int) : Option DateTime :=
  if ((dt.time.total_seconds : Int) + secs) / S_PER_DAY = 0 then
    some ⟨dt.date, dt.time.set_seconds ((dt.time.total_seconds : Int) + secs).toNat⟩
  else if ((dt.time.total_seconds : Int) + secs) / S_PER_DAY = 1 then
    some ⟨dt.date.increment,
      dt.time.set_seconds ((dt.time.total_seconds : Int) + secs - S_PER_DAY).toNat⟩
  else if ((dt.time.total_seconds : Int) + secs) / S_PER_DAY = -1 then
    some ⟨dt.date.decrement,
      dt.time.set_seconds ((dt.time.total_seconds : Int) + secs + S_PER_DAY).toNat⟩
  else if ((dt.time.total_seconds : Int) + secs) / S_PER_DAY = 2 then
    some ⟨dt.date.increment.increment,
      dt.time.set_seconds ((dt.time.total_seconds : Int) + secs - S_PER_DAY * 2).toNat⟩
  else if ((dt.time.total_seconds : Int) + secs) / S_PER_DAY = -2 then
    some ⟨dt.date.decrement.decrement,
      dt.time.set_seconds ((dt.time.total_seconds : Int) + secs + S_PER_DAY * 2).toNat⟩
  else none

/-! ### `Instant` and exact differences -/

/-- Modelled from the spec: `Instant::from_datetime` of the missing
`utc_datetime.rs`/`instant.rs`, followed by `total_nanos()`: the signed
nanosecond count `ordinal(date) * 86_400_000_000_000 + total_nanos(time)`
(spec section 3). -/
def Instant.from_datetime_total_nanos (d : Date) (t : Time) : Int :=
  (d.ord : Int) * NS_PER_DAY + (t.total_nanos : Int)

/-- Operator `__sub__` of `naive_datetime.rs` for two `NaiveDateTime`
operands: `TimeDelta::from_nanos_unchecked` of the difference of the two
instants (a `TimeDelta` is its signed total-nanosecond count, modelled from
the spec since `time_delta.rs` is missing). -/
def naive_sub (a b : DateTime) : Int :=
  Instant.from_datetime_total_nanos a.date a.time -
    Instant.from_datetime_total_nanos b.date b.time

/-! ### The policy-gated shift of `local_datetime.rs` -/

/-- Error outcomes of the shift and subtraction paths of
`local_datetime.rs`. -/
inductive DtErr where
  | implicitlyIgnoringDst
  | outOfRange
deriving DecidableEq, Repr

/-- Core of `_shift_method` from `local_datetime.rs` (lines 475-491), after
the keyword/argument plumbing has produced `months`, `days`, `nanos` and
`ignore_dst`: negate if subtracting, raise `ImplicitlyIgnoringDST` when the
exact part is non-zero without the override, then shift date and nanos. -/
def local_shift_method (dt : DateTime) (months days nanos : Int)
    (ignore_dst negate : Bool) : Except DtErr DateTime :=
  let months := if negate then -months else months
  let days := if negate then -days else days
  let nanos := if negate then -nanos else nanos
  if nanos ≠ 0 ∧ ignore_dst = false then
    .error .implicitlyIgnoringDst
  else
    match (dt.shift_date months days).bind (fun dt2 => dt2.shift_nanos nanos) with
    | some r => .ok r
    | none => .error .outOfRange

/-- Operator `__sub__` of `local_datetime.rs` when both operands are
`LocalDateTime`: it unconditionally raises `ImplicitlyIgnoringDST`
(lines 228-237); the payload type of the success case never materializes. -/
def local_sub_same_type (_a _b : DateTime) : Except DtErr Int :=
  .error .implicitlyIgnoringDst

/-! ### Pickling (claim C9) -/

/-- Error raised by the `unpickle` functions on a malformed payload. -/
inductive PickleErr where
  | invalidPickleData
deriving DecidableEq, Repr

/-- Serialization of a `Date` by `__reduce__` in `date.rs`:
`pack![year, month, day]` as `[year: u16][month: u8][day: u8]`, four bytes.
The `pack!` macro lives in the missing `common.rs`; the little-endian
fixed-width layout is modelled from the spec (section 6). -/
def Date.pack (d : Date) : List Nat :=
  [d.year % 256, d.year / 256 % 256, d.month % 256, d.day % 256]

/-- Function `unpickle` from `date.rs`: reject any payload whose length is
not exactly 4, otherwise unpack `u16, u8, u8`. -/
def Date.unpickle (packed : List Nat) : Except PickleErr Date :=
  if packed.length ≠ 4 then .error .invalidPickleData
  else .ok ⟨packed.getD 0 0 + 256 * packed.getD 1 0, packed.getD 2 0, packed.getD 3 0⟩

/-- Serialization of a `DateTime` by `__reduce__` in `naive_datetime.rs` and
`local_datetime.rs`: `pack![year, month, day, hour, minute, second, nanos]`,
eleven bytes (layout modelled from the spec, section 6). -/
def DateTime.pack (dt : DateTime) : List Nat :=
  [dt.date.year % 256, dt.date.year / 256 % 256, dt.date.month % 256, dt.date.day % 256,
    dt.time.hour % 256, dt.time.minute % 256, dt.time.second % 256,
    dt.time.nanos % 256, dt.time.nanos / 256 % 256, dt.time.nanos / 65536 % 256,
    dt.time.nanos / 16777216 % 256]

/-- Function `unpickle` from `naive_datetime.rs`/`local_datetime.rs`: reject
any payload whose length is not exactly 11, otherwise unpack
`u16, u8, u8, u8, u8, u8, u32`. -/
def DateTime.unpickle (packed : List Nat) : Except PickleErr DateTime :=
  if packed.length ≠ 11 then .error .invalidPickleData
  else .ok
    ⟨⟨packed.getD 0 0 + 256 * packed.getD 1 0, packed.getD 2 0, packed.getD 3 0⟩,
      ⟨packed.getD 4 0, packed.getD 5 0, packed.getD 6 0,
        packed.getD 7 0 + 256 * packed.getD 8 0 + 65536 * packed.getD 9 0 +
          16777216 * packed.getD 10 0⟩⟩

/-! ### Claim C5: exact-duration arithmetic on a local datetime is gated -/

/-- C5: `add`/`subtract` on a `LocalDateTime` fail with the
`ImplicitlyIgnoringDST` error exactly when the exact (nanosecond) component
is non-zero and the caller did not pass the `ignore_dst` override; the
calendar-only case is never gated; and the binary `-` operator between two
`LocalDateTime` values always fails with that error. -/
theorem c5_local_exact_shift_gated :
    (∀ (dt : DateTime) (months days nanos : Int) (ignore_dst negate : Bool),
      local_shift_method dt months days nanos ignore_dst negate =
          .error .implicitlyIgnoringDst ↔ (nanos ≠ 0 ∧ ignore_dst = false)) ∧
    (∀ a b : DateTime, local_sub_same_type a b = .error .implicitlyIgnoringDst) := by
  refine ⟨?_, fun a b => rfl⟩
  intro dt m d n ig neg
  unfold local_shift_method
  by_cases hg : n ≠ 0 ∧ ig = false
  · rw [if_pos (by cases neg <;> simpa using hg)]
    simpa using hg
  · rw [if_neg (by cases neg <;> simpa using hg)]
    rcases he : (DateTime.shift_date dt (if neg = true then -m else m)
        (if neg = true then -d else d)).bind
        (fun dt2 => dt2.shift_nanos (if neg = true then -n else n)) with _ | r <;>
      simp only [he] <;> exact iff_of_false (by simp) hg

/-! ### Claim C7: naive subtraction goes through `Instant` -/

/-- C7: subtracting one `NaiveDateTime` from another of the same kind
yields the exact delta whose total nanoseconds are the difference of the
two instants `ordinal(date) * 86_400_000_000_000 + total_nanos(time)`; the
operation is total (never errors), vanishes on equal operands and is
antisymmetric. -/
theorem c7_naive_sub_via_instant :
    (∀ a b : DateTime,
      naive_sub a b =
        Instant.from_datetime_total_nanos a.date a.time -
          Instant.from_datetime_total_nanos b.date b.time) ∧
    (∀ a b : DateTime,
      naive_sub a b =
        ((a.date.ord : Int) - (b.date.ord : Int)) * 86400000000000 +
          ((a.time.total_nanos : Int) - (b.time.total_nanos : Int))) ∧
    (∀ a : DateTime, naive_sub a a = 0) ∧
    (∀ a b : DateTime, naive_sub a b = -naive_sub b a) := by
  refine ⟨fun a b => rfl, fun a b => ?_, fun a => ?_, fun a b => ?_⟩ <;>
    unfold naive_sub Instant.from_datetime_total_nanos NS_PER_DAY <;> ring

/-! ### Claim C9: binary round-trip and length checking -/

/-- C9: pickling is the identity on valid values, the `Date` payload has 4
bytes and the `DateTime` payload 11, and decoding any payload of the wrong
length fails with the invalid-pickle-data error. -/
theorem c9_pickle_roundtrip :
    (∀ d : Date, d.Valid → Date.unpickle d.pack = .ok d) ∧
    (∀ d : Date, d.pack.length = 4) ∧
    (∀ bs : List Nat, bs.length ≠ 4 → Date.unpickle bs = .error .invalidPickleData) ∧
    (∀ dt : DateTime, dt.Valid → DateTime.unpickle dt.pack = .ok dt) ∧
    (∀ dt : DateTime, dt.pack.length = 11) ∧
    (∀ bs : List Nat, bs.length ≠ 11 →
      DateTime.unpickle bs = .error .invalidPickleData) := by
  refine ⟨?_, fun d => rfl, ?_, ?_, fun dt => rfl, ?_⟩
  · rintro ⟨y, m, d⟩ ⟨h1, h2, h3, h4, h5, h6⟩
    dsimp only at h1 h2 h3 h4 h5 h6
    have hd31 : days_in_month y m ≤ 31 := days_in_month_le_31 y m
    simp only [Date.pack, Date.unpickle, List.length_cons, List.length_nil, List.getD]
    norm_num
    refine ⟨by omega, by omega, by omega⟩
  · intro bs h
    unfold Date.unpickle
    rw [if_pos h]
  · rintro ⟨⟨y, m, d⟩, ⟨hh, mi, s, na⟩⟩ ⟨⟨h1, h2, h3, h4, h5, h6⟩, ⟨t1, t2, t3, t4⟩⟩
    dsimp only at h1 h2 h3 h4 h5 h6 t1 t2 t3 t4
    have hd31 : days_in_month y m ≤ 31 := days_in_month_le_31 y m
    simp only [DateTime.pack, DateTime.unpickle, List.length_cons, List.length_nil,
      List.getD]
    norm_num
    exact ⟨⟨by omega, by omega, by omega⟩, by omega, by omega, by omega, by omega⟩
  · intro bs h
    unfold DateTime.unpickle
    rw [if_pos h]

/-- C9 witness: the claim theorem applied to the concrete date 2020-02-29,
the concrete datetime 2020-02-29 23:59:59.999999999 and a concrete
wrong-length payload. -/
theorem c9_witness :
    Date.unpickle (Date.pack ⟨2020, 2, 29⟩) = .ok ⟨2020, 2, 29⟩ ∧
    DateTime.unpickle (DateTime.pack ⟨⟨2020, 2, 29⟩, ⟨23, 59, 59, 999999999⟩⟩) =
      .ok ⟨⟨2020, 2, 29⟩, ⟨23, 59, 59, 999999999⟩⟩ ∧
    Date.unpickle [1, 2, 3] = .error .invalidPickleData :=
  ⟨c9_pickle_roundtrip.1 ⟨2020, 2, 29⟩ (by decide),
    c9_pickle_roundtrip.2.2.2.1 ⟨⟨2020, 2, 29⟩, ⟨23, 59, 59, 999999999⟩⟩ (by decide),
    c9_pickle_roundtrip.2.2.1 [1, 2, 3] (by decide)⟩

/-! ### Claim C10: `small_shift_unchecked` stays in the five-arm window -/

/-- C10: under the documented precondition `|secs| < 172_800` and for a
valid time-of-day, the Euclidean quotient of (time-of-day seconds + secs)
by 86_400 always lies in -2..=2, so the `unreachable!()` arm is never taken
and the seconds passed to `set_seconds` are exactly the Euclidean remainder,
in `[0, 86_400)`. -/
theorem c10_small_shift_never_unreachable :
    ∀ (dt : DateTime) (secs : Int), dt.time.Valid → secs.natAbs < 172800 →
      (-2 ≤ ((dt.time.total_seconds : Int) + secs) / S_PER_DAY ∧
        ((dt.time.total_seconds : Int) + secs) / S_PER_DAY ≤ 2) ∧
      (dt.small_shift_unchecked secs).isSome = true ∧
      (∃ d2 : Date, dt.small_shift_unchecked secs =
        some ⟨d2, dt.time.set_seconds
          ((((dt.time.total_seconds : Int) + secs) % S_PER_DAY).toNat)⟩) ∧
      0 ≤ ((dt.time.total_seconds : Int) + secs) % S_PER_DAY ∧
      ((dt.time.total_seconds : Int) + secs) % S_PER_DAY < S_PER_DAY := by
  intro dt secs hv habs
  have hts : dt.time.total_seconds ≤ 86399 := by
    obtain ⟨h1, h2, h3, _⟩ := hv
    unfold Time.total_seconds
    omega
  have hkey : ∃ d2 : Date, dt.small_shift_unchecked secs =
      some ⟨d2, dt.time.set_seconds
        ((((dt.time.total_seconds : Int) + secs) % S_PER_DAY).toNat)⟩ := by
    unfold DateTime.small_shift_unchecked
    simp only [S_PER_DAY]
    have hq : ((dt.time.total_seconds : Int) + secs) / 86400 = -2 ∨
        ((dt.time.total_seconds : Int) + secs) / 86400 = -1 ∨
        ((dt.time.total_seconds : Int) + secs) / 86400 = 0 ∨
        ((dt.time.total_seconds : Int) + secs) / 86400 = 1 ∨
        ((dt.time.total_seconds : Int) + secs) / 86400 = 2 := by omega
    rcases hq with h | h | h | h | h
    · refine ⟨dt.date.decrement.decrement, ?_⟩
      rw [if_neg (by omega), if_neg (by omega), if_neg (by omega), if_neg (by omega),
        if_pos h]
      have he : (dt.time.total_seconds : Int) + secs + 86400 * 2 =
          ((dt.time.total_seconds : Int) + secs) % 86400 := by omega
      rw [← he]
    · refine ⟨dt.date.decrement, ?_⟩
      rw [if_neg (by omega), if_neg (by omega), if_pos h]
      have he : (dt.time.total_seconds : Int) + secs + 86400 =
          ((dt.time.total_seconds : Int) + secs) % 86400 := by omega
      rw [← he]
    · refine ⟨dt.date, ?_⟩
      rw [if_pos h]
      have he : (dt.time.total_seconds : Int) + secs =
          ((dt.time.total_seconds : Int) + secs) % 86400 := by omega
      rw [← he]
    · refine ⟨dt.date.increment, ?_⟩
      rw [if_neg (by omega), if_pos h]
      have he : (dt.time.total_seconds : Int) + secs - 86400 =
          ((dt.time.total_seconds : Int) + secs) % 86400 := by omega
      rw [← he]
    · refine ⟨dt.date.increment.increment, ?_⟩
      rw [if_neg (by omega), if_neg (by omega), if_neg (by omega), if_pos h]
      have he : (dt.time.total_seconds : Int) + secs - 86400 * 2 =
          ((dt.time.total_seconds : Int) + secs) % 86400 := by omega
      rw [← he]
  refine ⟨⟨?_, ?_⟩, ?_, hkey, ?_, ?_⟩
  · simp only [S_PER_DAY]; omega
  · simp only [S_PER_DAY]; omega
  · obtain ⟨d2, he⟩ := hkey
    rw [he]
    rfl
  · simp only [S_PER_DAY]; omega
  · simp only [S_PER_DAY]; omega

/-- C10 witness: the claim theorem applied at the concrete datetime
2023-03-02 23:59:59 shifted by plus one second. -/
theorem c10_witness :
    (DateTime.small_shift_unchecked ⟨⟨2023, 3, 2⟩, ⟨23, 59, 59, 0⟩⟩ 1).isSome = true :=
  (c10_small_shift_never_unreachable ⟨⟨2023, 3, 2⟩, ⟨23, 59, 59, 0⟩⟩ 1 (by decide)
    (by decide)).2.1

/-! ### Rounding (claim C8) -/

/-- Modelled from the spec: the rounding modes of the missing `round.rs`
(spec section 4.7 requires at least nearest, ceiling and floor). -/
inductive RoundMode where
  | floor
  | ceil
  | halfEven
deriving DecidableEq, Repr

/-- Modelled from the spec: `Time::round` of the missing `time.rs`
(spec section 4.7): round the total-nanosecond linearization to a multiple
of the increment under the mode, and return the rounded `Time` together
with a carry flag that is 1 exactly when the result rolls over midnight. -/
def round_to_increment (total increment : Nat) (mode : RoundMode) : Nat :=
  match mode with
  | .floor => total / increment * increment
  | .ceil =>
      if total % increment = 0 then total
      else (total / increment + 1) * increment
  | .halfEven =>
      if 2 * (total % increment) < increment then total / increment * increment
      else if increment < 2 * (total % increment) then
        (total / increment + 1) * increment
      else if total / increment % 2 = 0 then total / increment * increment
      else (total / increment + 1) * increment

/-- Modelled from the spec: the carry step of `Time::round`: a result that
reaches one full day becomes midnight with carry flag 1, anything else
carries 0. -/
def Time.round (t : Time) (increment : Nat) (mode : RoundMode) : Time × Nat :=
  if round_to_increment t.total_nanos increment mode = 86400000000000 then
    (⟨0, 0, 0, 0⟩, 1)
  else (Time.from_total_nanos (round_to_increment t.total_nanos increment mode), 0)

/-- Singleton `MAX` of `date.rs` (9999-12-31). -/
def MAX_DATE : Date := ⟨9999, 12, 31⟩

/-- Method `round` from `local_datetime.rs` (lines 799-820), after the
argument parsing of the missing `round.rs`: round the time; when the carry
flag is 1 advance the date with `Date::increment`, unless the date is
already `MAX`, in which case fail with an out-of-range error. -/
def DateTime.round (dt : DateTime) (increment : Nat) (mode : RoundMode) :
    Except DtErr DateTime :=
  let tr := dt.time.round increment mode
  if tr.2 = 1 then
    if dt.date ≠ MAX_DATE then .ok ⟨dt.date.increment, tr.1⟩
    else .error .outOfRange
  else .ok ⟨dt.date, tr.1⟩

/-! ### Claim C8: rounding carries at most one day and fails only at MAX -/

/-- C8: rounding a datetime yields the rounded time plus a carry flag in
0..=1; with carry 1 the date is advanced by `Date::increment`; the
operation fails with an out-of-range error exactly when the carry is 1 and
the date was already 9999-12-31; with carry 0 the date is unchanged. -/
theorem c8_round_carry_and_max :
    ∀ (dt : DateTime) (inc : Nat) (mode : RoundMode),
      ((dt.time.round inc mode).2 = 0 ∨ (dt.time.round inc mode).2 = 1) ∧
      (dt.round inc mode = .error .outOfRange ↔
        (dt.time.round inc mode).2 = 1 ∧ dt.date = MAX_DATE) ∧
      ((dt.time.round inc mode).2 = 1 → dt.date ≠ MAX_DATE →
        dt.round inc mode = .ok ⟨dt.date.increment, (dt.time.round inc mode).1⟩) ∧
      ((dt.time.round inc mode).2 = 0 →
        dt.round inc mode = .ok ⟨dt.date, (dt.time.round inc mode).1⟩) := by
  intro dt inc mode
  have hc : (dt.time.round inc mode).2 = 0 ∨ (dt.time.round inc mode).2 = 1 := by
    unfold Time.round
    split <;> simp
  refine ⟨hc, ?_, ?_, ?_⟩
  · unfold DateTime.round
    by_cases h1 : (dt.time.round inc mode).2 = 1
    · rw [if_pos h1]
      by_cases h2 : dt.date = MAX_DATE
      · rw [if_neg (by simpa using h2)]
        simp [h1, h2]
      · rw [if_pos h2]
        simp [h2]
    · rw [if_neg h1]
      simp [h1]
  · intro h1 h2
    unfold DateTime.round
    rw [if_pos h1, if_pos h2]
  · intro h0
    unfold DateTime.round
    rw [if_neg (by omega)]

/-- C8 witness: the claim theorem applied at 2023-03-02 23:59:59.999999999
rounded up to a whole second, which carries into 2023-03-03 00:00:00. -/
theorem c8_witness :
    DateTime.round ⟨⟨2023, 3, 2⟩, ⟨23, 59, 59, 999999999⟩⟩ 1000000000 .ceil =
      .ok ⟨⟨2023, 3, 3⟩, ⟨0, 0, 0, 0⟩⟩ := by
  have h := (c8_round_carry_and_max ⟨⟨2023, 3, 2⟩, ⟨23, 59, 59, 999999999⟩⟩
    1000000000 .ceil).2.2.1 (by decide) (by decide)
  rw [h]
  exact congrArg Except.ok (by decide)

/-! ### Text parsing (claim C6) -/

/-- Digit extraction of the `get_digit!` macro of the missing `common.rs`:
bytes 48..=57 yield their value, anything else fails the parse. -/
def digit (b : Nat) : Option Nat :=
  if 48 ≤ b ∧ b ≤ 57 then some (b - 48) else none

/-- Method `Date::parse_all` from `date.rs`: exactly 10 bytes, dashes
(byte 45) at positions 4 and 7, digits elsewhere, then `Date::new`. -/
def Date.parse_all (s : List Nat) : Option Date :=
  if s.length = 10 ∧ s.getD 4 0 = 45 ∧ s.getD 7 0 = 45 then
    (digit (s.getD 0 0)).bind fun d0 =>
    (digit (s.getD 1 0)).bind fun d1 =>
    (digit (s.getD 2 0)).bind fun d2 =>
    (digit (s.getD 3 0)).bind fun d3 =>
    (digit (s.getD 5 0)).bind fun d5 =>
    (digit (s.getD 6 0)).bind fun d6 =>
    (digit (s.getD 8 0)).bind fun d8 =>
    (digit (s.getD 9 0)).bind fun d9 =>
    Date.new (d0 * 1000 + d1 * 100 + d2 * 10 + d3) (d5 * 10 + d6) (d8 * 10 + d9)
  else none

/-- Value of a list of ASCII digit bytes read as a decimal numeral; fails on
any non-digit byte. -/
def parse_digits : List Nat → Option Nat
  | [] => some 0
  | b :: rest =>
      (digit b).bind fun d => (parse_digits rest).map fun v => d * 10 ^ rest.length + v

/-- Modelled from the spec: `Time::parse_all` of the missing `time.rs`
(spec sections 4.2 and 6): fixed-width `HH:MM:SS` (colons, byte 58, at
positions 2 and 5), optionally followed by a dot (byte 46) and 1 to 9
fractional digits scaled to nanoseconds; components validated. -/
def Time.parse_all (s : List Nat) : Option Time :=
  if 8 ≤ s.length ∧ s.getD 2 0 = 58 ∧ s.getD 5 0 = 58 then
    (digit (s.getD 0 0)).bind fun h0 =>
    (digit (s.getD 1 0)).bind fun h1 =>
    (digit (s.getD 3 0)).bind fun m0 =>
    (digit (s.getD 4 0)).bind fun m1 =>
    (digit (s.getD 6 0)).bind fun s0 =>
    (digit (s.getD 7 0)).bind fun s1 =>
    if h0 * 10 + h1 ≤ 23 ∧ m0 * 10 + m1 ≤ 59 ∧ s0 * 10 + s1 ≤ 59 then
      if s.length = 8 then
        some ⟨h0 * 10 + h1, m0 * 10 + m1, s0 * 10 + s1, 0⟩
      else if s.getD 8 0 = 46 ∧ 10 ≤ s.length ∧ s.length ≤ 18 then
        (parse_digits (s.drop 9)).map fun v =>
          ⟨h0 * 10 + h1, m0 * 10 + m1, s0 * 10 + s1, v * 10 ^ (9 - (s.length - 9))⟩
      else none
    else none
  else none

/-- Function `parse_date_and_time` from `naive_datetime.rs` and
`local_datetime.rs`: `Date::parse_all` on the first 10 bytes zipped with
`Time::parse_all` on the bytes after the separator.  The separator byte and
the minimum length are the precondition stated by the function's
`debug_assert!` and checked by its callers. -/
def parse_date_and_time (s : List Nat) : Option (Date × Time) :=
  (Date.parse_all (s.take 10)).bind fun d =>
    (Time.parse_all (s.drop 11)).map fun t => (d, t)

theorem date_parse_all_len {l : List Nat} {d : Date}
    (h : Date.parse_all l = some d) : l.length = 10 := by
  unfold Date.parse_all at h
  split at h
  · rename_i hc
    exact hc.1
  · cases h

theorem time_parse_all_len {l : List Nat} {t : Time}
    (h : Time.parse_all l = some t) : 8 ≤ l.length := by
  by_contra hlen
  rw [Time.parse_all, if_neg (fun hc => hlen hc.1)] at h
  cases h

/-! ### Claim C6: the combined datetime text grammar -/

/-- C6: on any byte string of length at least 19 whose byte 10 is one of
the separators `T`, `t`, space or `_`, the combined parser succeeds exactly
when the first 10 bytes are a valid date and the bytes after the separator
are a valid time; any successful parse needs at least 19 bytes; and the
four strictness examples behave as specified, with
`"2023-03-02 02:09:09.123456789"` parsing to nanosecond 123456789. -/
theorem c6_combined_parse_grammar :
    (∀ s : List Nat, 19 ≤ s.length →
      (s.getD 10 0 = 84 ∨ s.getD 10 0 = 116 ∨ s.getD 10 0 = 32 ∨ s.getD 10 0 = 95) →
      ∀ (d : Date) (t : Time),
        (parse_date_and_time s = some (d, t) ↔
          Date.parse_all (s.take 10) = some d ∧ Time.parse_all (s.drop 11) = some t)) ∧
    (∀ s : List Nat, (parse_date_and_time s).isSome = true → 19 ≤ s.length) ∧
    parse_date_and_time
      [50, 48, 50, 51, 45, 48, 51, 45, 48, 50, 32, 48, 50, 58, 48, 57, 58, 48, 57, 46] =
      none ∧
    parse_date_and_time
      [50, 48, 50, 51, 45, 48, 51, 45, 48, 50, 32, 48, 50, 58, 48, 57, 58, 48, 57, 46,
        49, 50, 51, 52, 53, 54, 55, 56, 57, 48] = none ∧
    parse_date_and_time
      [50, 48, 50, 51, 45, 48, 50, 45, 50, 57, 32, 48, 50, 58, 50, 57, 58, 48, 57, 46,
        49, 50, 51, 52, 53, 54, 55, 56, 57] = none ∧
    parse_date_and_time
      [50, 48, 50, 51, 45, 48, 51, 45, 48, 50, 32, 48, 50, 58, 48, 57, 58, 48, 57, 46,
        49, 50, 51, 52, 53, 54, 55, 56, 57] =
      some (⟨2023, 3, 2⟩, ⟨2, 9, 9, 123456789⟩) := by
  refine ⟨?_, ?_, by decide, by decide, by decide, by decide⟩
  · intro s _ _ d t
    unfold parse_date_and_time
    rcases hd : Date.parse_all (s.take 10) with _ | d2 <;>
      rcases ht : Time.parse_all (s.drop 11) with _ | t2 <;>
      simp [Option.bind, Prod.ext_iff]
  · intro s hsome
    unfold parse_date_and_time at hsome
    rcases hd : Date.parse_all (s.take 10) with _ | d
    · rw [hd] at hsome
      simp at hsome
    · rcases ht : Time.parse_all (s.drop 11) with _ | t
      · rw [hd, ht] at hsome
        simp at hsome
      · have h1 := date_parse_all_len hd
        have h2 := time_parse_all_len ht
        rw [List.length_take] at h1
        rw [List.length_drop] at h2
        omega

/-- C6 witness: the claim theorem applied at the concrete well-formed
string `"2023-03-02 02:09:09.123456789"`. -/
theorem c6_witness :
    parse_date_and_time
      [50, 48, 50, 51, 45, 48, 51, 45, 48, 50, 32, 48, 50, 58, 48, 57, 58, 48, 57, 46,
        49, 50, 51, 52, 53, 54, 55, 56, 57] =
      some (⟨2023, 3, 2⟩, ⟨2, 9, 9, 123456789⟩) := by
  have h := c6_combined_parse_grammar.1
    [50, 48, 50, 51, 45, 48, 51, 45, 48, 50, 32, 48, 50, 58, 48, 57, 58, 48, 57, 46,
      49, 50, 51, 52, 53, 54, 55, 56, 57]
    (by decide) (by decide) ⟨2023, 3, 2⟩ ⟨2, 9, 9, 123456789⟩
  exact h.mpr ⟨by decide, by decide⟩

/-! ### Claim C1: the ordinal bijection

The proof factors the leap-year dependence of the month tables through a
Boolean parameter so that the per-month facts become finite checks, while
all year-level arithmetic (the 400/100/4/1-year block decomposition of
`from_ord_unchecked` against the closed form of `days_before_year`) is
linear arithmetic over quotients and remainders by fixed constants. -/

/-- The `days_before_month` table as a function of the leap flag alone. -/
def dbmL (L : Bool) (m : Nat) : Nat :=
  DAYS_BEFORE_MONTH_TABLE.getD m 0 + (if 2 < m && L then 1 else 0)

/-- The `days_in_month` table as a function of the leap flag alone. -/
def dimL (L : Bool) (m : Nat) : Nat :=
  if m == 2 && L then 29 else DAYS_IN_MONTH_TABLE.getD m 0

theorem days_before_month_eq_dbmL (y m : Nat) :
    days_before_month y m = dbmL (is_leap y) m := rfl

theorem days_in_month_eq_dimL (y m : Nat) :
    days_in_month y m = dimL (is_leap y) m := rfl

theorem days_in_month_12 (y : Nat) : days_in_month y 12 = 31 := rfl

theorem days_before_month_12 (y : Nat) :
    days_before_month y 12 = 334 + (if is_leap y = true then 1 else 0) := by
  unfold days_before_month
  by_cases hL : is_leap y = true
  · rw [hL]
    rfl
  · rw [Bool.not_eq_true] at hL
    rw [hL]
    rfl

set_option maxRecDepth 40000 in
/-- Month selection of `from_ord_unchecked`: for every leap flag and every
in-year day index, the corrected first estimate `(r1 + 50) / 32` lands on
the month containing the index, with the running day count agreeing with
the `days_before_month` table.  A finite check over the 2 × 365 cases. -/
theorem monthSel_ok : ∀ (L : Bool) (r1 : Fin 365),
    if r1.1 < dbmL L ((r1.1 + 50) / 32) then
      1 ≤ (r1.1 + 50) / 32 - 1 ∧ (r1.1 + 50) / 32 - 1 ≤ 12 ∧
        dbmL L ((r1.1 + 50) / 32) - dimL L ((r1.1 + 50) / 32 - 1) =
          dbmL L ((r1.1 + 50) / 32 - 1) ∧
        dbmL L ((r1.1 + 50) / 32) - dimL L ((r1.1 + 50) / 32 - 1) ≤ r1.1 ∧
        r1.1 - (dbmL L ((r1.1 + 50) / 32) - dimL L ((r1.1 + 50) / 32 - 1)) + 1 ≤
          dimL L ((r1.1 + 50) / 32 - 1)
    else
      1 ≤ (r1.1 + 50) / 32 ∧ (r1.1 + 50) / 32 ≤ 12 ∧
        dbmL L ((r1.1 + 50) / 32) ≤ r1.1 ∧
        r1.1 - dbmL L ((r1.1 + 50) / 32) + 1 ≤ dimL L ((r1.1 + 50) / 32) := by
  decide

/-- Finite facts about the month tables: a month together with its length
stays within the year, and months are ordered cumulatively. -/
theorem dbm_table_facts : ∀ (L : Bool) (m1 m2 : Fin 13),
    (1 ≤ m1.1 → dbmL L m1.1 + dimL L m1.1 ≤ 365 + (if L = true then 1 else 0)) ∧
    (1 ≤ m1.1 → m1.1 < m2.1 → dbmL L m1.1 + dimL L m1.1 ≤ dbmL L m2.1) := by
  decide

set_option maxHeartbeats 1000000 in
theorem days_before_year_succ (y : Nat) (h : 1 ≤ y) :
    days_before_year (y + 1) =
      days_before_year y + 365 + (if is_leap y = true then 1 else 0) := by
  by_cases hL : is_leap y = true
  · have hLa := (is_leap_iff y).mp hL
    rw [if_pos hL]
    unfold days_before_year
    omega
  · have hLa : ¬((y % 4 = 0 ∧ y % 100 ≠ 0) ∨ y % 400 = 0) :=
      fun hc => hL ((is_leap_iff y).mpr hc)
    rw [if_neg hL]
    unfold days_before_year
    omega

theorem days_before_year_le_succ (y : Nat) :
    days_before_year y ≤ days_before_year (y + 1) := by
  rcases Nat.eq_zero_or_pos y with h0 | h0
  · subst h0
    decide
  · have hs := days_before_year_succ y h0
    by_cases hL : is_leap y = true
    · rw [if_pos hL] at hs
      omega
    · rw [if_neg hL] at hs
      omega

theorem days_before_year_mono {a b : Nat} (h : a ≤ b) :
    days_before_year a ≤ days_before_year b := by
  induction b with
  | zero =>
      have ha : a = 0 := by omega
      subst ha
      exact Nat.le_refl _
  | succ n ih =>
      rcases Nat.lt_or_ge a (n + 1) with h2 | h2
      · exact Nat.le_trans (ih (by omega)) (days_before_year_le_succ n)
      · have ha : a = n + 1 := by omega
        subst ha
        exact Nat.le_refl _

theorem days_before_year_10000 : days_before_year 10000 = 3652059 := rfl

set_option maxHeartbeats 4000000 in
/-- Core of the left-inverse direction: with the block decomposition of
`n - 1` by 146097/36524/1461/365 named explicitly, the date produced by
the body of `from_ord_unchecked` is valid and its `ord` is `n`. -/
theorem from_ord_core (n n0 n400 r400 n100 r100 n4 r4 n1 r1 year : Nat) (d : Date)
    (h1 : 1 ≤ n) (h2 : n ≤ 3652059)
    (e0 : n0 = n - 1) (e1 : n400 = n0 / 146097) (e2 : r400 = n0 % 146097)
    (e3 : n100 = r400 / 36524) (e4 : r100 = r400 % 36524)
    (e5 : n4 = r100 / 1461) (e6 : r4 = r100 % 1461)
    (e7 : n1 = r4 / 365) (e8 : r1 = r4 % 365)
    (e9 : year = 400 * n400 + 100 * n100 + 4 * n4 + n1 + 1)
    (hd : d = if n1 == 4 || n100 == 4 then (⟨year - 1, 12, 31⟩ : Date)
      else if r1 < days_before_month year ((r1 + 50) / 32) then
        ⟨year, (r1 + 50) / 32 - 1,
          r1 - (days_before_month year ((r1 + 50) / 32) -
            days_in_month year ((r1 + 50) / 32 - 1)) + 1⟩
      else ⟨year, (r1 + 50) / 32, r1 - days_before_month year ((r1 + 50) / 32) + 1⟩) :
    d.Valid ∧ d.ord = n := by
  subst hd
  have hn0 : n0 = 146097 * n400 + 36524 * n100 + 1461 * n4 + 365 * n1 + r1 := by
    omega
  by_cases hedge : (n1 == 4 || n100 == 4) = true
  · rw [if_pos hedge]
    replace hedge : n1 = 4 ∨ n100 = 4 := by simpa using hedge
    rcases hedge with h4 | h4
    · have hr4 : r4 = 1460 := by omega
      have hr1z : r1 = 0 := by omega
      have hn4 : n4 ≤ 23 := by omega
      have hn100 : n100 ≤ 3 := by omega
      have hn400 : n400 ≤ 24 := by omega
      have hY : year - 1 = 400 * n400 + 100 * n100 + 4 * n4 + 4 := by omega
      have hY2 : year - 1 - 1 = 400 * n400 + 100 * n100 + 4 * n4 + 3 := by omega
      have hleap : is_leap (year - 1) = true := by
        rw [is_leap_iff]
        exact Or.inl ⟨by omega, by omega⟩
      have hd4 : (year - 1 - 1) / 4 = 100 * n400 + 25 * n100 + n4 := by omega
      have hd100 : (year - 1 - 1) / 100 = 4 * n400 + n100 := by omega
      have hd400 : (year - 1 - 1) / 400 = n400 := by omega
      constructor
      · unfold Date.Valid
        dsimp only
        rw [days_in_month_12]
        omega
      · unfold Date.ord
        dsimp only
        rw [days_before_month_12, if_pos hleap]
        unfold days_before_year
        omega
    · have hr400 : r400 = 146096 := by omega
      have hq : r100 = 0 ∧ n4 = 0 ∧ r4 = 0 ∧ n1 = 0 ∧ r1 = 0 := by omega
      obtain ⟨q1, q2, q3, q4, q5⟩ := hq
      have hn400 : n400 ≤ 23 := by omega
      have hY : year - 1 = 400 * n400 + 400 := by omega
      have hY2 : year - 1 - 1 = 400 * n400 + 399 := by omega
      have hleap : is_leap (year - 1) = true := by
        rw [is_leap_iff]
        exact Or.inr (by omega)
      have hd4 : (year - 1 - 1) / 4 = 100 * n400 + 99 := by omega
      have hd100 : (year - 1 - 1) / 100 = 4 * n400 + 3 := by omega
      have hd400 : (year - 1 - 1) / 400 = n400 := by omega
      constructor
      · unfold Date.Valid
        dsimp only
        rw [days_in_month_12]
        omega
      · unfold Date.ord
        dsimp only
        rw [days_before_month_12, if_pos hleap]
        unfold days_before_year
        omega
  · rw [if_neg hedge]
    replace hedge : ¬(n1 = 4 ∨ n100 = 4) := by simpa using hedge
    have hr1 : r1 < 365 := by omega
    have hb100 : n100 ≤ 3 := by omega
    have hb4 : n4 ≤ 24 := by omega
    have hb1 : n1 ≤ 3 := by omega
    have hY : year - 1 = 400 * n400 + 100 * n100 + 4 * n4 + n1 := by omega
    have hd4 : (year - 1) / 4 = 100 * n400 + 25 * n100 + n4 := by omega
    have hd100 : (year - 1) / 100 = 4 * n400 + n100 := by omega
    have hd400 : (year - 1) / 400 = n400 := by omega
    have hyear : year ≤ 9999 := by omega
    have hsel := monthSel_ok (is_leap year) ⟨r1, hr1⟩
    dsimp only at hsel
    by_cases hbr : r1 < days_before_month year ((r1 + 50) / 32)
    · rw [if_pos hbr]
      rw [days_before_month_eq_dbmL] at hbr
      rw [if_pos hbr] at hsel
      obtain ⟨s1, s2, s3, s4, s5⟩ := hsel
      constructor
      · unfold Date.Valid
        dsimp only
        simp only [days_before_month_eq_dbmL, days_in_month_eq_dimL]
        omega
      · unfold Date.ord
        dsimp only
        simp only [days_before_month_eq_dbmL, days_in_month_eq_dimL]
        unfold days_before_year
        omega
    · rw [if_neg hbr]
      rw [days_before_month_eq_dbmL] at hbr
      rw [if_neg hbr] at hsel
      obtain ⟨s1, s2, s3, s4⟩ := hsel
      constructor
      · unfold Date.Valid
        dsimp only
        simp only [days_before_month_eq_dbmL, days_in_month_eq_dimL]
        omega
      · unfold Date.ord
        dsimp only
        simp only [days_before_month_eq_dbmL, days_in_month_eq_dimL]
        unfold days_before_year
        omega

set_option maxHeartbeats 1000000 in
/-- Left inverse: every ordinal in `[1, 3_652_059]` produces a valid date
whose `ord` is the original ordinal. -/
theorem from_ord_unchecked_spec (n : Nat) (h1 : 1 ≤ n) (h2 : n ≤ 3652059) :
    (Date.from_ord_unchecked n).Valid ∧ (Date.from_ord_unchecked n).ord = n :=
  from_ord_core n (n - 1) ((n - 1) / 146097) ((n - 1) % 146097)
    ((n - 1) % 146097 / 36524) ((n - 1) % 146097 % 36524)
    ((n - 1) % 146097 % 36524 / 1461) ((n - 1) % 146097 % 36524 % 1461)
    ((n - 1) % 146097 % 36524 % 1461 / 365) ((n - 1) % 146097 % 36524 % 1461 % 365)
    (400 * ((n - 1) / 146097) + 100 * ((n - 1) % 146097 / 36524) +
      4 * ((n - 1) % 146097 % 36524 / 1461) + (n - 1) % 146097 % 36524 % 1461 / 365 + 1)
    (Date.from_ord_unchecked n) h1 h2 rfl rfl rfl rfl rfl rfl rfl rfl rfl rfl rfl

/-- Every valid date has an ordinal in `[1, 3_652_059]`. -/
theorem ord_bounds (d : Date) (h : d.Valid) : 1 ≤ d.ord ∧ d.ord ≤ 3652059 := by
  obtain ⟨y, m, dy⟩ := d
  obtain ⟨h1, h2, h3, h4, h5, h6⟩ := h
  dsimp only at h1 h2 h3 h4 h5 h6
  have hf := (dbm_table_facts (is_leap y) ⟨m, by omega⟩ ⟨12, by omega⟩).1 h3
  dsimp only at hf
  have hsucc := days_before_year_succ y h1
  have hmono := days_before_year_mono (show y + 1 ≤ 10000 by omega)
  have hmax := days_before_year_10000
  rw [days_in_month_eq_dimL] at h6
  unfold Date.ord
  dsimp only
  rw [days_before_month_eq_dbmL]
  by_cases hL : is_leap y = true
  · rw [if_pos hL] at hf hsucc
    omega
  · rw [if_neg hL] at hf hsucc
    omega

/-- The ordinal is strictly monotone in the lexicographic component
order on valid dates. -/
theorem ord_lt_of_lex (a b : Date) (hva : a.Valid) (hvb : b.Valid)
    (h : a.year < b.year ∨ (a.year = b.year ∧
      (a.month < b.month ∨ (a.month = b.month ∧ a.day < b.day)))) :
    a.ord < b.ord := by
  obtain ⟨ya, ma, da⟩ := a
  obtain ⟨yb, mb, db⟩ := b
  obtain ⟨a1, a2, a3, a4, a5, a6⟩ := hva
  obtain ⟨b1, b2, b3, b4, b5, b6⟩ := hvb
  dsimp only at a1 a2 a3 a4 a5 a6 b1 b2 b3 b4 b5 b6 h
  unfold Date.ord
  dsimp only
  rw [days_in_month_eq_dimL] at a6 b6
  simp only [days_before_month_eq_dbmL]
  rcases h with hy | ⟨hy, hm | ⟨hm, hd⟩⟩
  · have hfa := (dbm_table_facts (is_leap ya) ⟨ma, by omega⟩ ⟨12, by omega⟩).1 a3
    dsimp only at hfa
    have hsucc := days_before_year_succ ya a1
    have hmono := days_before_year_mono (show ya + 1 ≤ yb by omega)
    by_cases hL : is_leap ya = true
    · rw [if_pos hL] at hfa hsucc
      omega
    · rw [if_neg hL] at hfa hsucc
      omega
  · subst hy
    have hfab := (dbm_table_facts (is_leap ya) ⟨ma, by omega⟩ ⟨mb, by omega⟩).2 a3 hm
    dsimp only at hfab
    omega
  · subst hy
    subst hm
    omega

/-- The ordinal is injective on valid dates. -/
theorem ord_inj (a b : Date) (hva : a.Valid) (hvb : b.Valid)
    (h : a.ord = b.ord) : a = b := by
  by_contra hne
  have hlex : (a.year < b.year ∨ (a.year = b.year ∧
        (a.month < b.month ∨ (a.month = b.month ∧ a.day < b.day)))) ∨
      (b.year < a.year ∨ (b.year = a.year ∧
        (b.month < a.month ∨ (b.month = a.month ∧ b.day < a.day)))) := by
    obtain ⟨ya, ma, da⟩ := a
    obtain ⟨yb, mb, db⟩ := b
    dsimp only
    have : ¬(ya = yb ∧ ma = mb ∧ da = db) := by
      rintro ⟨rfl, rfl, rfl⟩
      exact hne rfl
    omega
  rcases hlex with hlex | hlex
  · exact absurd h (Nat.ne_of_lt (ord_lt_of_lex a b hva hvb hlex))
  · exact absurd h.symm (Nat.ne_of_lt (ord_lt_of_lex b a hvb hva hlex))

/-- Right inverse: `from_ord` recovers every valid date from its ordinal. -/
theorem from_ord_roundtrip (d : Date) (h : d.Valid) :
    Date.from_ord (d.ord : Int) = some d := by
  have hb := ord_bounds d h
  unfold Date.from_ord
  rw [if_pos (by constructor <;> omega)]
  have ht : ((d.ord : Int)).toNat = d.ord := Int.toNat_natCast _
  rw [ht]
  have hspec := from_ord_unchecked_spec d.ord hb.1 hb.2
  exact congrArg some (ord_inj _ _ hspec.1 h hspec.2)

/-- C1: `ordinal` and `from_ordinal` are exact two-sided inverses: every
ordinal in `[1, 3_652_059]` yields a valid Gregorian date whose `ord` is
the original ordinal, and `from_ord` applied to the ordinal of any valid
date returns exactly that date. -/
theorem c1_ordinal_bijection :
    (∀ n : Nat, 1 ≤ n → n ≤ 3652059 →
      (Date.from_ord_unchecked n).Valid ∧ (Date.from_ord_unchecked n).ord = n) ∧
    (∀ d : Date, d.Valid → Date.from_ord (d.ord : Int) = some d) :=
  ⟨from_ord_unchecked_spec, from_ord_roundtrip⟩

/-- C1 witness: the claim theorem applied at the concrete ordinal 730179
(which is 2000-02-29) and the concrete date 2000-02-29. -/
theorem c1_witness :
    (Date.from_ord_unchecked 730179).Valid ∧
    (Date.from_ord_unchecked 730179).ord = 730179 ∧
    Date.from_ord ((Date.ord ⟨2000, 2, 29⟩ : Nat) : Int) = some ⟨2000, 2, 29⟩ := by
  have h := c1_ordinal_bijection.1 730179 (by decide) (by decide)
  exact ⟨h.1, h.2, c1_ordinal_bijection.2 ⟨2000, 2, 29⟩ (by decide)⟩

end Whenever
